import Mathlib

/-!
# storj-up: Standalone runtime and health poller

A shallow embedding of `pkg/runtime/standalone/standalone.go` and `cmd/health.go`.

Conventions of the embedding:
* Go strings are lists of characters (`Str`); text is taken to be valid UTF-8, so that
  byte-level tests such as `line[0] != '#'` coincide with tests on the first character.
* Go `int` is `Int`; every integer that occurs is a slice length or a value read from outside,
  no arithmetic that could overflow is performed on them.
* A Go call either returns or panics: `Outcome`.
* The file system is a finite-support map from file paths to file contents (`FS`); directories are
  implicit, `os.Stat` succeeds exactly on the paths that hold content and never fails otherwise.
* Functions of packages whose sources are not available (`runtime`, `recipe`, `common`,
  `identity`, `os/exec`) are fields of `Env`, so every statement holds for each of their
  possible behaviours, unless a definition below says how it was modelled.
-/

namespace StorjUp

/-- Go string, as its sequence of characters. -/
abbrev Str := List Char

/-- Go error value, identified with its message. -/
abbrev GoError := Str

/-- Result of a Go call: a normal return or a panic carrying its message. -/
inductive Outcome (α : Type) where
  | returned (value : α)
  | panicked (msg : Str)
deriving DecidableEq, Repr

/-- The function `strconv.Itoa`, also the `%d` verb of `fmt`. -/
def Itoa : Int → Str
  | Int.ofNat k => Nat.toDigits 10 k
  | Int.negSucc k => '-' :: Nat.toDigits 10 (k + 1)

/-! ## Strings and paths (Go standard library, Unix) -/

/-- The function `strings.Split(s, sep)` for a separator of one character. -/
def splitChar (sep : Char) : Str → List Str
  | [] => [[]]
  | c :: cs =>
      if c = sep then [] :: splitChar sep cs
      else
        match splitChar sep cs with
        | [] => [[c]]
        | w :: ws => (c :: w) :: ws

/-- The predicate `unicode.IsSpace`. -/
def isSpace (c : Char) : Bool :=
  let n := c.toNat
  (0x09 ≤ n && n ≤ 0x0D) || n == 0x20 || n == 0x85 || n == 0xA0 || n == 0x1680 ||
  (0x2000 ≤ n && n ≤ 0x200A) || n == 0x2028 || n == 0x2029 || n == 0x202F || n == 0x205F ||
  n == 0x3000

/-- The function `strings.TrimSpace`. -/
def TrimSpace (s : Str) : Str :=
  ((s.dropWhile isSpace).reverse.dropWhile isSpace).reverse

/-- One component of a path processed by `Clean`; `stack` holds the components kept so far,
innermost first. -/
def cleanStep (rooted : Bool) (stack : List Str) (comp : Str) : List Str :=
  if comp = [] ∨ comp = ['.'] then stack
  else if comp = ['.', '.'] then
    match stack with
    | [] => if rooted then [] else [comp]
    | top :: below => if top = ['.', '.'] then comp :: stack else below
  else comp :: stack

/-- The function `path.Clean` (equal to `filepath.Clean` on Unix): the shortest equivalent path. -/
def Clean (path : Str) : Str :=
  if path = [] then ['.']
  else
    let rooted := path.head? == some '/'
    let body := List.intercalate ['/'] ((splitChar '/' path).foldl (cleanStep rooted) []).reverse
    if rooted then '/' :: body
    else if body = [] then ['.'] else body

/-- The function `filepath.Join`: the elements from the first non-empty one on, joined by the
separator and cleaned; the empty string when all are empty. -/
def Join : List Str → Str
  | [] => []
  | e :: rest => if e = [] then Join rest else Clean (List.intercalate ['/'] (e :: rest))

/-- The function `path.Dir`: everything up to the last slash, cleaned. -/
def Dir (path : Str) : Str :=
  Clean (path.reverse.dropWhile (fun ch => ch != '/')).reverse

/-! ## File system -/

/-- File system: the content of each path that exists. -/
abbrev FS := Str → Option Str

/-- Whether `os.Stat(path)` reports that the path does not exist (`os.IsNotExist(err)`). -/
def IsNotExist (fs : FS) (path : Str) : Bool := (fs path).isNone

/-- The function `os.WriteFile`. -/
def WriteFile (fs : FS) (path data : Str) : FS :=
  fun q => if q = path then some data else fs q

/-- Whether `q` is `path` or lies below it. -/
def isUnder (path q : Str) : Bool :=
  q == path || (path ++ ['/']).isPrefixOf q

/-- The function `os.RemoveAll`: removes `path` and everything below it. -/
def RemoveAll (fs : FS) (path : Str) : FS :=
  fun q => if isUnder path q then none else fs q

/-- The function `os.MkdirAll`: directories are implicit in `FS`, no file changes. -/
def MkdirAll (fs : FS) (_path : Str) : FS := fs

/-! ## Data model -/

/-- The type `runtime.ServiceInstance`. -/
structure ServiceInstance where
  Name : Str
  Instance : Int
deriving DecidableEq, Repr

/-- Modelled from the spec: `runtime.NewServiceInstance` (package `runtime`, source not
available) builds the identity from its two components. -/
def NewServiceInstance (name : Str) (i : Int) : ServiceInstance :=
  { Name := name, Instance := i }

/-- Modelled from the spec: `ServiceInstance.String` (package `runtime`, source not available),
the canonical string form `<name>/<index>`. -/
def ServiceInstance.String (s : ServiceInstance) : Str :=
  s.Name ++ ['/'] ++ Itoa s.Instance

/-- The type `recipe.Service`: the fields this file reads, and the initial flags. -/
structure Recipe where
  Name : Str
  Label : List Str
  Command : List Str
  Flag : List Str
deriving DecidableEq, Repr

/-- Modelled from the spec: `recipe.Service.HasLabel` (package `recipe`, source not available):
whether the recipe carries the capability label. -/
def Recipe.HasLabel (r : Recipe) (label : Str) : Bool :=
  r.Label.contains label

/-- The type `service` of package `standalone`. Its `render` field is the closure
`runtime.Render(c, id, ·)`, which is determined by the runtime and `id` and is not stored here. -/
structure service where
  id : ServiceInstance
  config : List Str
  Command : List Str
  labels : List Str
  Environment : List (Str × Str)
deriving DecidableEq, Repr

/-- Go map with string keys, as an association list read at the first match. -/
abbrev GoMap (V : Type) := List (Str × V)

/-- Map read `m[k]`: the zero value `dflt` when the key is absent. -/
def GoMap.get {V : Type} (m : GoMap V) (k : Str) (dflt : V) : V :=
  match m.find? (fun kv => kv.1 == k) with
  | some kv => kv.2
  | none => dflt

/-- Map write `m[k] = v`. -/
def GoMap.set {V : Type} : GoMap V → Str → V → GoMap V
  | [], k, v => [(k, v)]
  | (k0, v0) :: rest, k, v =>
      if k0 = k then (k, v) :: rest else (k0, v0) :: GoMap.set rest k v

/-- The type `Standalone`; `vars` is its field `variables` (a reserved word here). -/
structure Standalone where
  dir : Str
  services : List service
  vars : GoMap (GoMap Str)
  clean : Bool
  Intellij : Bool
  ProjectDir : Str
deriving DecidableEq, Repr

/-- What this file uses from packages whose sources are not available. -/
structure Env where
  /-- The function `runtime.ServiceInstanceFromIndexedName`. -/
  ServiceInstanceFromIndexedName : Str → ServiceInstance
  /-- The function `runtime.ServiceInstanceFromStr`. -/
  ServiceInstanceFromStr : Str → ServiceInstance
  /-- The function `runtime.PortConvention`. -/
  PortConvention : ServiceInstance → Str → Except GoError Int
  /-- The function `runtime.InitFromRecipe`: the service after the call, and the error. -/
  InitFromRecipe : service → Recipe → service × Option GoError
  /-- The method `service.AddFlag`: the service after the call, and the error. -/
  AddFlag : service → Str → service × Option GoError
  /-- The constant `common.Satellite0Identity`. -/
  Satellite0Identity : Str
  /-- The function `common.GetTestApiKey`. -/
  GetTestApiKey : Str → Except GoError Str
  /-- Embedded file `ca.cert`. -/
  caCert : Str
  /-- Embedded file `ca.key`. -/
  caKey : Str
  /-- Embedded file `identity.cert`. -/
  identityCert : Str
  /-- Embedded file `identity.key`. -/
  identityKey : Str
  /-- Generation of a certificate authority by `identity.NewCA`: certificate and key, or an error. -/
  NewCA : Except GoError (Str × Str)
  /-- Generation of a leaf identity signed by the given authority: certificate and key, or an error. -/
  NewIdentity : Str × Str → Except GoError (Str × Str)
  /-- Running `exec.Command(name, args...).CombinedOutput()`: the file system it leaves, its
  output, its error. -/
  CombinedOutput : Str → List Str → FS → FS × Str × Option GoError

/-! ## storj.io/common/identity -/

/-- The type `identity.TLSFilesStatus`. -/
inductive TLSFilesStatus where
  | NoCertNoKey
  | CertNoKey
  | NoCertKey
  | CertKey
deriving DecidableEq, Repr

/-- The method `Status` of `identity.CASetupConfig` and `identity.SetupConfig`: which of the
certificate and key files exist. -/
def Status (fs : FS) (certPath keyPath : Str) : TLSFilesStatus × Option GoError :=
  match IsNotExist fs certPath, IsNotExist fs keyPath with
  | false, false => (TLSFilesStatus.CertKey, none)
  | false, true => (TLSFilesStatus.CertNoKey, none)
  | true, false => (TLSFilesStatus.NoCertKey, none)
  | true, true => (TLSFilesStatus.NoCertNoKey, none)

/-- The method `identity.CASetupConfig.Create`: generates an authority and saves its certificate
and key at the configured paths. -/
def CASetupConfigCreate (env : Env) (fs : FS) (certPath keyPath : Str) :
    FS × Except GoError (Str × Str) :=
  match env.NewCA with
  | Except.error err => (fs, Except.error err)
  | Except.ok ca => (WriteFile (WriteFile fs certPath ca.1) keyPath ca.2, Except.ok ca)

/-- The method `identity.SetupConfig.Create`: issues a leaf identity signed by `ca` and saves its
certificate and key at the configured paths. -/
def SetupConfigCreate (env : Env) (fs : FS) (certPath keyPath : Str) (ca : Str × Str) :
    FS × Except GoError (Str × Str) :=
  match env.NewIdentity ca with
  | Except.error err => (fs, Except.error err)
  | Except.ok ident => (WriteFile (WriteFile fs certPath ident.1) keyPath ident.2, Except.ok ident)

/-! ## pkg/runtime/standalone/standalone.go -/

/-- The method `Standalone.Reload`: the outcome of the call and the runtime after it. -/
def Reload {Stack : Type} (c : Standalone) (_stack : Stack) :
    Outcome (Option GoError) × Standalone :=
  (Outcome.panicked "implement me".toList, c)

/-- The method `Standalone.GetServices`: a slice of the registry's length, filled index by index
(`none` is the nil interface value the slice is made with). -/
def GetServices (c : Standalone) : List (Option service) :=
  c.services.enum.foldl (fun k entry => k.set entry.1 (some entry.2))
    (List.replicate c.services.length none)

/-- The method `Standalone.GetHost`. -/
def GetHost (_c : Standalone) (_service : ServiceInstance) (_hostType : Str) : Str :=
  "localhost".toList

/-- The method `Standalone.GetPort`. -/
def GetPort (env : Env) (_c : Standalone) (service : ServiceInstance) (portType : Str) :
    Outcome Int :=
  match env.PortConvention service portType with
  | Except.error err => Outcome.panicked err
  | Except.ok port => Outcome.returned port

/-- The method `Standalone.Get`. -/
def Get (env : Env) (c : Standalone) (service : ServiceInstance) (name : Str) : Outcome Str :=
  if name = "identityDir".toList then
    Outcome.returned service.String
  else if name = "accessGrant".toList then
    let sat := env.ServiceInstanceFromStr "satellite-api/0".toList
    let host := GetHost c sat "external".toList
    match GetPort env c sat "public".toList with
    | Outcome.panicked msg => Outcome.panicked msg
    | Outcome.returned port =>
        match env.GetTestApiKey
            (env.Satellite0Identity ++ "@".toList ++ host ++ ":".toList ++ Itoa port) with
        | Except.error err => Outcome.returned err
        | Except.ok key => Outcome.returned key
  else
    Outcome.returned (GoMap.get (GoMap.get c.vars service.Name []) name [])

/-- The method `Standalone.serviceCount`. -/
def serviceCount (env : Env) (c : Standalone) (name : Str) : Int :=
  c.services.foldl
    (fun i o => if o.id.Name = (env.ServiceInstanceFromIndexedName name).Name then i + 1 else i) 0

/-- The method `Standalone.uniqueName`. -/
def uniqueName (env : Env) (c : Standalone) (s : service) : Str :=
  let u := if serviceCount env c s.id.Name > 1 then Itoa (s.id.Instance + 1) else []
  s.id.Name ++ u

/-- The method `Standalone.generateIdentity`: the file system after the call, and the error. -/
def generateIdentity (env : Env) (c : Standalone) (fs : FS) (name : Str) (index : Int) :
    FS × Option GoError :=
  let serviceDir := Join [c.dir, name, Itoa index]
  let caCertPath := Join [serviceDir, "ca.cert".toList]
  let caKeyPath := Join [serviceDir, "ca.key".toList]
  let identCertPath := Join [serviceDir, "identity.cert".toList]
  let identKeyPath := Join [serviceDir, "identity.key".toList]
  if name = "satellite-api".toList ∧ index = 0 then
    let fs := MkdirAll fs serviceDir
    let fs := WriteFile fs identCertPath env.identityCert
    let fs := WriteFile fs identKeyPath env.identityKey
    let fs := WriteFile fs caCertPath env.caCert
    let fs := WriteFile fs caKeyPath env.caKey
    (fs, none)
  else
    match Status fs caCertPath caKeyPath with
    | (_, some err) => (fs, some err)
    | (status, none) =>
      if status ≠ TLSFilesStatus.NoCertNoKey then
        (fs, some "CA certificate and/or key already exists, NOT overwriting!".toList)
      else
        match Status fs identCertPath identKeyPath with
        | (_, some err) => (fs, some err)
        | (status, none) =>
          if status ≠ TLSFilesStatus.NoCertNoKey then
            (fs, some "Identity certificate and/or key already exists, NOT overwriting!".toList)
          else
            match CASetupConfigCreate env fs caCertPath caKeyPath with
            | (fs, Except.error caerr) => (fs, some caerr)
            | (fs, Except.ok ca) =>
              match SetupConfigCreate env fs identCertPath identKeyPath ca with
              | (fs, Except.error iderr) => (fs, some iderr)
              | (fs, Except.ok _) => (fs, none)

/-- Lines 115-118 of `AddService`: the optional wipe and the creation of the directory. -/
def prepareDir (c : Standalone) (fs : FS) (serviceDir : Str) : FS :=
  MkdirAll (if c.clean then RemoveAll fs serviceDir else fs) serviceDir

/-- Lines 123-128 of `AddService`: identity provisioning, skipped when the leaf certificate
exists. -/
def provisionIdentity (env : Env) (c : Standalone) (fs : FS) (id : ServiceInstance)
    (serviceDir : Str) : FS × Option GoError :=
  if IsNotExist fs (Join [serviceDir, "identity.cert".toList]) then
    generateIdentity env c fs id.Name id.Instance
  else
    (fs, none)

/-- Lines 148-154 of `AddService`: the loop over the configuration lines, writing in place. -/
def commentConfig (config : List Str) : List Str :=
  (List.range config.length).foldl
    (fun config ix =>
      match config[ix]? with
      | none => config
      | some line =>
          let line := TrimSpace line
          if line.length > 0 ∧ line.head? ≠ some '#' then config.set ix ('#' :: line)
          else config)
    config

/-- Lines 130-155 of `AddService`: generation of the configuration by the setup subcommand.
Returns the file system, the text printed, and the service or the error. -/
def generateConfig (env : Env) (recipe : Recipe) (s : service) (serviceDir : Str) (fs : FS) :
    FS × List Str × Except GoError service :=
  let configFile := Join [serviceDir, "config.yaml".toList]
  if IsNotExist fs configFile ∧ recipe.Command.length > 0 then
    let args := ["setup".toList, "--config-dir=".toList ++ Dir configFile] ++
      (if s.id.Name = "storagenode".toList then ["--identity-dir".toList, Dir configFile] else [])
    match env.CombinedOutput (recipe.Command.headD []) args fs with
    | (fs, out, some err) => (fs, [out ++ "\n".toList], Except.error err)
    | (fs, _, none) =>
      match fs configFile with
      | none =>
          (fs, [], Except.error ("open ".toList ++ configFile ++ ": no such file or directory".toList))
      | some cfg => (fs, [], Except.ok { s with config := commentConfig (splitChar '\n' cfg) })
  else
    (fs, [], Except.ok s)

/-- What a call of `AddService` leaves: the returned service (`none` is nil) and error, the
runtime, the file system and the text printed. -/
structure AddResult where
  svc : Option service
  err : Option GoError
  c : Standalone
  fs : FS
  printed : List Str

/-- The method `Standalone.AddService`. A nil `recipe.Label` and an empty one are the same list
here, so the replacement of nil labels by an empty slice is the identity. -/
def AddService (env : Env) (c : Standalone) (fs : FS) (recipe : Recipe) : AddResult :=
  let i := serviceCount env c recipe.Name
  let id := NewServiceInstance recipe.Name i
  let s : service :=
    { id := id, config := [], Command := [], labels := recipe.Label, Environment := [] }
  let serviceDir := Join [c.dir, s.id.Name, Itoa s.id.Instance]
  let fs := prepareDir c fs serviceDir
  let configFile : Str :=
    if recipe.HasLabel "storj".toList then Join [serviceDir, "config.yaml".toList] else []
  let setup : FS × List Str × Except GoError service :=
    if recipe.HasLabel "storj".toList then
      match provisionIdentity env c fs s.id serviceDir with
      | (fs, some err) => (fs, [], Except.error err)
      | (fs, none) => generateConfig env recipe s serviceDir fs
    else
      (fs, [], Except.ok s)
  match setup with
  | (fs, printed, Except.error err) =>
      { svc := none, err := some err, c := c, fs := fs, printed := printed }
  | (fs, printed, Except.ok s) =>
    match env.InitFromRecipe s recipe with
    | (s, some err) => { svc := some s, err := some err, c := c, fs := fs, printed := printed }
    | (s, none) =>
      if recipe.HasLabel "storj".toList then
        match env.AddFlag s ("--config-dir=".toList ++ Dir configFile) with
        | (s, some err) => { svc := some s, err := some err, c := c, fs := fs, printed := printed }
        | (s, none) =>
            { svc := some s, err := none, c := { c with services := c.services ++ [s] },
              fs := fs, printed := printed }
      else
        { svc := some s, err := none, c := { c with services := c.services ++ [s] },
          fs := fs, printed := printed }

/-- The function `NewStandalone`. -/
def NewStandalone (env : Env) (dir projectDir : Str) : Standalone × Option GoError :=
  let s : Standalone :=
    { clean := true,
      dir := dir,
      services := [],
      vars :=
        [("cockroach".toList,
            [("main".toList, "cockroach://root@localhost:26257/master?sslmode=disable".toList),
             ("metainfo".toList, "cockroach://root@localhost:26257/metainfo?sslmode=disable".toList),
             ("dir".toList, Join [dir, "cockroach".toList, "0".toList, "data".toList])]),
         ("storagenode".toList,
            [("staticDir".toList, Join [projectDir, "storj/web/storagenode".toList])]),
         ("redis".toList,
            [("url".toList, "redis://localhost:6379".toList)]),
         ("satellite-api".toList,
            [("mailTemplateDir".toList, Join [projectDir, "storj/web/satellite/static/emails".toList]),
             ("staticDir".toList, Join [projectDir, "storj/web/satellite".toList])]),
         ("linksharing".toList,
            [("webDir".toList, Join [projectDir, "gateway-mt/pkg/linksharing/web".toList]),
             ("staticDir".toList, Join [projectDir, "gateway-mt/pkg/linksharing/web/static".toList])])],
      Intellij := false,
      ProjectDir := [] }
  let satellite := GoMap.set (GoMap.get s.vars "satellite-api".toList []) "identity".toList
    env.Satellite0Identity
  let s := { s with vars := GoMap.set s.vars "satellite-api".toList satellite }
  (s, none)

/-- A sequence of `AddService` calls, each on the runtime and file system the previous one left.
Returns the final runtime and file system and the result of every call, in call order. -/
def addServices (env : Env) : Standalone → FS → List Recipe → Standalone × FS × List AddResult
  | c, fs, [] => (c, fs, [])
  | c, fs, recipe :: rest =>
      let r := AddService env c fs recipe
      let tail := addServices env r.c r.fs rest
      (tail.1, tail.2.1, r :: tail.2.2)

/-! ## Concrete collaborators used to evaluate the code -/

/-- The value of a run of decimal digits. -/
def digitsValue (digits : Str) : Nat :=
  digits.foldl (fun n d => 10 * n + (d.toNat - '0'.toNat)) 0

/-- Modelled from the spec: `runtime.ServiceInstanceFromStr` (package `runtime`, source not
available), the parse that accepts the form `<name>/<index>` or a bare name, for which the
index is 0. -/
def ServiceInstanceFromStr (text : Str) : ServiceInstance :=
  match splitChar '/' text with
  | name :: index :: _ => { Name := name, Instance := Int.ofNat (digitsValue index) }
  | _ => { Name := text, Instance := 0 }

/-- A setup subcommand: writes a two-line `config.yaml` into the directory named by its
`--config-dir=` argument, whose second line is a comment and whose first line is indented. -/
def sampleSetup (_name : Str) (args : List Str) (fs : FS) : FS × Str × Option GoError :=
  match args with
  | _ :: configArg :: _ =>
      (WriteFile fs (configArg.drop 13 ++ "/config.yaml".toList)
        "  addr: 1.2.3.4\n# already commented".toList, [], none)
  | _ => (fs, "missing --config-dir".toList, some "exit status 1".toList)

/-- A set of collaborators in which everything succeeds; the indexed-name parser keeps the name
it is given, ports are known for the public port of `satellite-api` only. -/
def sampleEnv : Env :=
  { ServiceInstanceFromIndexedName := fun name => { Name := name, Instance := 0 },
    ServiceInstanceFromStr := ServiceInstanceFromStr,
    PortConvention := fun service portType =>
      if service.Name = "satellite-api".toList ∧ portType = "public".toList then Except.ok 7777
      else Except.error ("unknown port ".toList ++ portType),
    InitFromRecipe := fun s recipe => ({ s with Command := recipe.Command ++ recipe.Flag }, none),
    AddFlag := fun s flag => ({ s with Command := s.Command ++ [flag] }, none),
    Satellite0Identity := "satellite0".toList,
    GetTestApiKey := fun _ => Except.ok "key".toList,
    caCert := "embedded ca.cert".toList,
    caKey := "embedded ca.key".toList,
    identityCert := "embedded identity.cert".toList,
    identityKey := "embedded identity.key".toList,
    NewCA := Except.ok ("fresh ca.cert".toList, "fresh ca.key".toList),
    NewIdentity := fun _ => Except.ok ("fresh identity.cert".toList, "fresh identity.key".toList),
    CombinedOutput := sampleSetup }

/-- The collaborators of `sampleEnv`, except that the setup subcommand exits with an error. -/
def failingSetupEnv : Env :=
  { sampleEnv with
    CombinedOutput := fun _ _ fs => (fs, "boom".toList, some "exit status 1".toList) }

/-- The runtime `NewStandalone("/up", "/src")`. -/
def sampleRuntime : Standalone := (NewStandalone sampleEnv "/up".toList "/src".toList).1

/-- A file system holding only the CA certificate of `storagenode/0` under `/up`. -/
def caCertOnlyFS : FS := fun path =>
  if path = "/up/storagenode/0/ca.cert".toList then some "old ca.cert".toList else none

/-- The empty file system. -/
def emptyFS : FS := fun _ => none

/-- A recipe without labels whose name ends in a digit. -/
def storagenode1Recipe : Recipe :=
  { Name := "storagenode1".toList, Label := [], Command := [], Flag := [] }

/-- A storj-labelled recipe with a launch command. -/
def storagenodeRecipe : Recipe :=
  { Name := "storagenode".toList, Label := ["storj".toList],
    Command := ["storagenode".toList, "run".toList], Flag := [] }

/-! ## cmd/health.go -/

/-- What `row.Scan(&count)` does in `dbRecordCount`. -/
inductive Scan where
  | failed (msg : GoError)
  | scanned (count : Int)
deriving DecidableEq, Repr

/-- One iteration's view of the database: `sql.Open` fails, or it succeeds and the query is run. -/
inductive Poll where
  | openFailed (msg : GoError)
  | opened (row : Scan)
deriving DecidableEq, Repr

/-- The function `dbRecordCount`: `(0, errs.Wrap(err))` when the scan fails, `(count, nil)` otherwise. -/
def dbRecordCount (row : Scan) : Int × Option GoError :=
  match row with
  | Scan.failed msg => (0, some msg)
  | Scan.scanned count => (count, none)

/-- An execution of `checkHealth` against a finite sequence of poll outcomes. `result = none` means
the loop is still running when the outcomes are used up; `result = some e` means it returned `e`.
`polls` counts the iterations started, `out` is the text printed. -/
structure HealthRun where
  result : Option (Option GoError)
  polls : Nat
  out : List Str
deriving DecidableEq, Repr

/-- Accounts for one more iteration that printed `printed` before the rest of the run. -/
def HealthRun.after (printed : List Str) (r : HealthRun) : HealthRun :=
  { result := r.result, polls := r.polls + 1, out := printed ++ r.out }

/-- The loop of `checkHealth`, entered with the current value of `prevCount`. -/
def checkHealthFrom (table : Str) (records : Int) : Int → List Poll → HealthRun
  | _, [] => { result := none, polls := 0, out := [] }
  | prevCount, Poll.openFailed msg :: rest =>
      (checkHealthFrom table records prevCount rest).after
        ["Couldn't connect to the database: ".toList ++ msg ++ "\n".toList]
  | prevCount, Poll.opened row :: rest =>
      match dbRecordCount row with
      | (_, some err) =>
          (checkHealthFrom table records prevCount rest).after
            ["Couldn't query database for records: ".toList ++ err ++ "\n".toList]
      | (count, none) =>
          if count = records then
            { result := some none, polls := 1,
              out := ["\n".toList,
                      table ++ " has ".toList ++ Itoa records ++ " records\n".toList] }
          else if count ≠ prevCount then
            (checkHealthFrom table records count rest).after
              ["Found only ".toList ++ Itoa count ++ " records in the database ".toList]
          else
            (checkHealthFrom table records count rest).after [".".toList]

/-- The function `checkHealth`: the loop started with `prevCount := -1`. -/
def checkHealth (table : Str) (records : Int) (polls : List Poll) : HealthRun :=
  checkHealthFrom table records (-1) polls

/-- The function `checkHealthWithTimeout`. With `timeout = 0` it is `checkHealth`. Otherwise the
poller runs in a goroutine raced against a timer; `budget` is the number of iterations the
goroutine completes before the timer fires (decided by the clock, hence a parameter). -/
def checkHealthWithTimeout (table : Str) (records timeout : Int) (budget : Nat)
    (polls : List Poll) : HealthRun :=
  if timeout = 0 then
    checkHealth table records polls
  else
    let r := checkHealth table records (polls.take budget)
    match r.result with
    | some (some err) => { r with result := some (some err) }
    | some none => { r with result := some none }
    | none =>
        { r with result := some (some "health check failed. duration limit reached".toList) }

/-- The row count a poll delivers to the comparison with the target, if it delivers one. -/
def Poll.delivered : Poll → Option Int
  | Poll.openFailed _ => none
  | Poll.opened (Scan.failed _) => none
  | Poll.opened (Scan.scanned count) => some count

/-- Whether a poll delivers exactly `records`. -/
def Poll.hits (records : Int) (p : Poll) : Bool :=
  decide (p.delivered = some records)

/-- The spec's scenario: successive counts 3, 3, 7, 10. -/
def scenarioPolls : List Poll :=
  [Poll.opened (Scan.scanned 3), Poll.opened (Scan.scanned 3), Poll.opened (Scan.scanned 7),
   Poll.opened (Scan.scanned 10)]

/-! ## Notions used in the statements -/

/-- The four identity files of a service directory. -/
def identityFiles (serviceDir : Str) : List Str :=
  [Join [serviceDir, "ca.cert".toList], Join [serviceDir, "ca.key".toList],
   Join [serviceDir, "identity.cert".toList], Join [serviceDir, "identity.key".toList]]

/-- The services registered by a sequence of calls: those of the calls that returned no error,
in call order. -/
def registered (results : List AddResult) : List service :=
  results.filterMap (fun r => if r.err = none then r.svc else none)

/-- A line is blank when nothing is left of it once surrounding white space is removed. -/
def isBlank (line : Str) : Bool := (TrimSpace line).isEmpty

/-- A line is a comment when its first character after leading white space is the marker. -/
def isComment (line : Str) : Bool := (TrimSpace line).head? == some '#'

/-- What the loop makes of one line. -/
def commentLine (line : Str) : Str :=
  if isBlank line = false ∧ isComment line = false then '#' :: TrimSpace line else line

/-- The instance indices of the registered services that carry `name`, in registry order. -/
def instancesOf (name : Str) (services : List service) : List Int :=
  (services.filter (fun s => decide (s.id.Name = name))).map (fun s => s.id.Instance)

/-- The indices registered under `name` are 0, 1, 2, ... in registry order. -/
def Dense (name : Str) (services : List service) : Prop :=
  instancesOf name services
    = (List.range (instancesOf name services).length).map Int.ofNat

/-! ## Theorems: cmd/health.go -/

/-- The loop returns nil at the first poll that delivers the target, whatever `prevCount` is. -/
theorem checkHealthFrom_first_hit (table : Str) (records : Int) (polls : List Poll) :
    ∀ prevCount : Int, (∃ p ∈ polls, Poll.hits records p = true) →
      (checkHealthFrom table records prevCount polls).result = some none ∧
      (checkHealthFrom table records prevCount polls).polls
        = polls.findIdx (Poll.hits records) + 1 := by
  induction polls with
  | nil => intro _ h; obtain ⟨p, hp, _⟩ := h; cases hp
  | cons p rest ih =>
    intro prevCount h
    have hrest : Poll.hits records p = false → ∃ q ∈ rest, Poll.hits records q = true := by
      intro hp
      obtain ⟨q, hq, hhit⟩ := h
      rcases List.mem_cons.mp hq with rfl | hq
      · rw [hp] at hhit; cases hhit
      · exact ⟨q, hq, hhit⟩
    cases p with
    | openFailed msg =>
      have hp : Poll.hits records (Poll.openFailed msg) = false := by
        simp [Poll.hits, Poll.delivered]
      have := ih prevCount (hrest hp)
      simp [checkHealthFrom, HealthRun.after, List.findIdx_cons, hp, this]
    | opened row =>
      cases row with
      | failed msg =>
        have hp : Poll.hits records (Poll.opened (Scan.failed msg)) = false := by
          simp [Poll.hits, Poll.delivered]
        have := ih prevCount (hrest hp)
        simp [checkHealthFrom, dbRecordCount, HealthRun.after, List.findIdx_cons, hp, this]
      | scanned count =>
        by_cases hc : count = records
        · have hp : Poll.hits records (Poll.opened (Scan.scanned count)) = true := by
            simp [Poll.hits, Poll.delivered, hc]
          rw [List.findIdx_cons, hp]
          simp [checkHealthFrom, dbRecordCount, hc]
        · have hp : Poll.hits records (Poll.opened (Scan.scanned count)) = false := by
            simp [Poll.hits, Poll.delivered, hc]
          have := ih count (hrest hp)
          rw [List.findIdx_cons, hp]
          by_cases hprev : count = prevCount
          · simp [checkHealthFrom, dbRecordCount, HealthRun.after, hc, hprev.symm, this]
          · simp [checkHealthFrom, dbRecordCount, HealthRun.after, hc, hprev, this]

/-- Without a poll that delivers the target the loop uses every poll and does not return. -/
theorem checkHealthFrom_no_hit (table : Str) (records : Int) (polls : List Poll) :
    ∀ prevCount : Int, (∀ p ∈ polls, Poll.hits records p = false) →
      (checkHealthFrom table records prevCount polls).result = none ∧
      (checkHealthFrom table records prevCount polls).polls = polls.length := by
  induction polls with
  | nil => intro _ _; exact ⟨rfl, rfl⟩
  | cons p rest ih =>
    intro prevCount h
    have hp := h p (List.mem_cons_self _ _)
    have hrest : ∀ q ∈ rest, Poll.hits records q = false :=
      fun q hq => h q (List.mem_cons_of_mem _ hq)
    cases p with
    | openFailed msg =>
      have := ih prevCount hrest
      simp [checkHealthFrom, HealthRun.after, this]
    | opened row =>
      cases row with
      | failed msg =>
        have := ih prevCount hrest
        simp [checkHealthFrom, dbRecordCount, HealthRun.after, this]
      | scanned count =>
        have hc : count ≠ records := by
          intro hc
          simp [Poll.hits, Poll.delivered, hc] at hp
        have := ih count hrest
        by_cases hprev : count = prevCount
        · simp [checkHealthFrom, dbRecordCount, HealthRun.after, hc, hprev.symm, this]
        · simp [checkHealthFrom, dbRecordCount, HealthRun.after, hc, hprev, this]

/-- C9: with no timeout, when some poll delivers the target count, `checkHealthWithTimeout`
returns nil, and the number of polls it performed is the position of the first poll that
delivers the target; over the polls before that one, whatever their errors and counts, it
has used every poll and has not returned. -/
theorem checkHealthWithTimeout_no_timeout_first_hit (table : Str) (records : Int) (budget : Nat)
    (polls : List Poll) (h : ∃ p ∈ polls, Poll.hits records p = true) :
    (checkHealthWithTimeout table records 0 budget polls).result = some none ∧
    (checkHealthWithTimeout table records 0 budget polls).polls
      = polls.findIdx (Poll.hits records) + 1 ∧
    (checkHealthWithTimeout table records 0 budget
      (polls.take (polls.findIdx (Poll.hits records)))).result = none ∧
    (checkHealthWithTimeout table records 0 budget
      (polls.take (polls.findIdx (Poll.hits records)))).polls
      = polls.findIdx (Poll.hits records) := by
  simp only [checkHealthWithTimeout, if_true, checkHealth]
  have hbefore := checkHealthFrom_no_hit table records
    (polls.take (polls.findIdx (Poll.hits records))) (-1)
    (fun p hp => List.false_of_mem_take_findIdx hp)
  have hlen : (polls.take (polls.findIdx (Poll.hits records))).length
      = polls.findIdx (Poll.hits records) := by
    rw [List.length_take]
    exact Nat.min_eq_left (List.findIdx_le_length _)
  rw [hlen] at hbefore
  exact ⟨(checkHealthFrom_first_hit table records polls (-1) h).1,
    (checkHealthFrom_first_hit table records polls (-1) h).2, hbefore.1, hbefore.2⟩

/-- The spec's scenario: counts 3, 3, 7, 10 against the target 10 succeed with the 4th poll. -/
theorem checkHealthWithTimeout_no_timeout_first_hit_witness :
    (∃ p ∈ scenarioPolls, Poll.hits 10 p = true) ∧
    ((checkHealthWithTimeout "nodes".toList 10 0 0 scenarioPolls).result = some none ∧
     (checkHealthWithTimeout "nodes".toList 10 0 0 scenarioPolls).polls
       = scenarioPolls.findIdx (Poll.hits 10) + 1 ∧
     (checkHealthWithTimeout "nodes".toList 10 0 0
       (scenarioPolls.take (scenarioPolls.findIdx (Poll.hits 10)))).result = none ∧
     (checkHealthWithTimeout "nodes".toList 10 0 0
       (scenarioPolls.take (scenarioPolls.findIdx (Poll.hits 10)))).polls
       = scenarioPolls.findIdx (Poll.hits 10)) ∧
    scenarioPolls.findIdx (Poll.hits 10) + 1 = 4 :=
  ⟨⟨Poll.opened (Scan.scanned 10), by decide, by decide⟩,
   checkHealthWithTimeout_no_timeout_first_hit "nodes".toList 10 0 scenarioPolls
     ⟨Poll.opened (Scan.scanned 10), by decide, by decide⟩,
   by decide⟩

/-! ## Theorems: Standalone, ports, reload, identity directory -/

/-- C2, as the code has it: `GetPort` returns exactly the resolver's port when the convention is
defined, and panics with the resolver's error message when it is not. -/
theorem getPort_returns_port_or_panics (env : Env) (c : Standalone) (service : ServiceInstance)
    (portType : Str) :
    (∃ port, env.PortConvention service portType = Except.ok port ∧
      GetPort env c service portType = Outcome.returned port) ∨
    (∃ err, env.PortConvention service portType = Except.error err ∧
      GetPort env c service portType = Outcome.panicked err) := by
  unfold GetPort
  cases h : env.PortConvention service portType with
  | error err => exact Or.inr ⟨err, rfl, rfl⟩
  | ok port => exact Or.inl ⟨port, rfl, rfl⟩

/-- C2 fails as stated: for `redis/0` and port kind `public` the resolver of `sampleEnv` defines
no port, and `GetPort` does not return to its caller, it panics. -/
theorem getPort_undefined_convention_panics :
    sampleEnv.PortConvention { Name := "redis".toList, Instance := 0 } "public".toList
      = Except.error "unknown port public".toList ∧
    GetPort sampleEnv sampleRuntime { Name := "redis".toList, Instance := 0 } "public".toList
      = Outcome.panicked "unknown port public".toList ∧
    ¬ ∃ port, GetPort sampleEnv sampleRuntime { Name := "redis".toList, Instance := 0 }
      "public".toList = Outcome.returned port := by
  refine ⟨rfl, by decide, ?_⟩
  rintro ⟨port, h⟩
  have hp : GetPort sampleEnv sampleRuntime { Name := "redis".toList, Instance := 0 }
      "public".toList = Outcome.panicked "unknown port public".toList := by decide
  rw [hp] at h
  cases h

/-- C8, as the code has it: for every stack and runtime `Reload` panics with the message
`implement me`, and the runtime (registry and variables included) is what it was. -/
theorem reload_panics_runtime_unchanged {Stack : Type} (c : Standalone) (stack : Stack) :
    Reload c stack = (Outcome.panicked "implement me".toList, c) := rfl

/-- C8 fails as stated: on the runtime built by `NewStandalone` and the empty stack, `Reload`
does not return an error value, it panics. -/
theorem reload_does_not_return :
    (Reload sampleRuntime ([] : List Recipe)).1 = Outcome.panicked "implement me".toList ∧
    ¬ ∃ e, (Reload sampleRuntime ([] : List Recipe)).1 = Outcome.returned e := by
  refine ⟨rfl, ?_⟩
  rintro ⟨e, h⟩
  cases h

/-- Writing a file leaves every other path alone. -/
theorem writeFile_other (fs : FS) (path data q : Str) (h : q ≠ path) :
    WriteFile fs path data q = fs q := by
  simp [WriteFile, h]

/-- In this file system `Status` never fails. -/
theorem status_eq (fs : FS) (certPath keyPath : Str) :
    Status fs certPath keyPath = ((Status fs certPath keyPath).1, none) := by
  unfold Status
  cases IsNotExist fs certPath <;> cases IsNotExist fs keyPath <;> rfl

/-- Creating an authority touches its two files only. -/
theorem caCreate_frame (env : Env) (fs : FS) (certPath keyPath q : Str)
    (h1 : q ≠ certPath) (h2 : q ≠ keyPath) :
    (CASetupConfigCreate env fs certPath keyPath).1 q = fs q := by
  unfold CASetupConfigCreate
  cases env.NewCA with
  | error err => rfl
  | ok ca => simp only [writeFile_other _ _ _ _ h2, writeFile_other _ _ _ _ h1]

/-- Creating a leaf identity touches its two files only. -/
theorem identCreate_frame (env : Env) (fs : FS) (certPath keyPath q : Str) (ca : Str × Str)
    (h1 : q ≠ certPath) (h2 : q ≠ keyPath) :
    (SetupConfigCreate env fs certPath keyPath ca).1 q = fs q := by
  unfold SetupConfigCreate
  cases env.NewIdentity ca with
  | error err => rfl
  | ok ident => simp only [writeFile_other _ _ _ _ h2, writeFile_other _ _ _ _ h1]

/-- The method `generateIdentity` touches the four identity files of the instance directory only. -/
theorem generateIdentity_frame (env : Env) (c : Standalone) (fs : FS) (name : Str) (index : Int)
    (q : Str) (hq : q ∉ identityFiles (Join [c.dir, name, Itoa index])) :
    (generateIdentity env c fs name index).1 q = fs q := by
  simp only [identityFiles, List.mem_cons, List.mem_singleton, not_or, List.not_mem_nil,
    or_false] at hq
  obtain ⟨h1, h2, h3, h4⟩ := hq
  unfold generateIdentity
  simp only [MkdirAll]
  split
  · simp only [writeFile_other _ _ _ _ h4, writeFile_other _ _ _ _ h3,
      writeFile_other _ _ _ _ h2, writeFile_other _ _ _ _ h1]
  · rw [status_eq fs (Join [Join [c.dir, name, Itoa index], "ca.cert".toList]),
      status_eq fs (Join [Join [c.dir, name, Itoa index], "identity.cert".toList])]
    dsimp only
    split
    · rfl
    · split
      · rfl
      · split
        · rename_i fs1 caerr hca
          have := caCreate_frame env fs _ _ q h1 h2
          rw [hca] at this
          exact this
        · rename_i fs1 ca hca
          have hfs1 := caCreate_frame env fs _ _ q h1 h2
          rw [hca] at hfs1
          split
          · rename_i fs2 iderr hid
            have := identCreate_frame env fs1 _ _ q ca h3 h4
            rw [hid] at this
            exact this.trans hfs1
          · rename_i fs2 ident hid
            have := identCreate_frame env fs1 _ _ q ca h3 h4
            rw [hid] at this
            exact this.trans hfs1

/-- C5: for an instance other than `satellite-api/0`, when exactly one file of the CA pair
exists, or the CA pair is absent and exactly one file of the leaf pair exists,
`generateIdentity` returns the corresponding "already exists, NOT overwriting!" error and the
file system is what it was. -/
theorem generateIdentity_partial_state_conflict (env : Env) (c : Standalone) (fs : FS)
    (name : Str) (index : Int)
    (hroot : ¬ (name = "satellite-api".toList ∧ index = 0))
    (hone :
      IsNotExist fs (Join [Join [c.dir, name, Itoa index], "ca.cert".toList])
        ≠ IsNotExist fs (Join [Join [c.dir, name, Itoa index], "ca.key".toList]) ∨
      (IsNotExist fs (Join [Join [c.dir, name, Itoa index], "ca.cert".toList]) = true ∧
       IsNotExist fs (Join [Join [c.dir, name, Itoa index], "ca.key".toList]) = true ∧
       IsNotExist fs (Join [Join [c.dir, name, Itoa index], "identity.cert".toList])
        ≠ IsNotExist fs (Join [Join [c.dir, name, Itoa index], "identity.key".toList]))) :
    generateIdentity env c fs name index =
      (fs, some
        (if IsNotExist fs (Join [Join [c.dir, name, Itoa index], "ca.cert".toList])
            ≠ IsNotExist fs (Join [Join [c.dir, name, Itoa index], "ca.key".toList])
         then "CA certificate and/or key already exists, NOT overwriting!".toList
         else "Identity certificate and/or key already exists, NOT overwriting!".toList)) := by
  unfold generateIdentity
  simp only [if_neg hroot, Status]
  generalize IsNotExist fs (Join [Join [c.dir, name, Itoa index], "ca.cert".toList]) = a
    at hone ⊢
  generalize IsNotExist fs (Join [Join [c.dir, name, Itoa index], "ca.key".toList]) = b
    at hone ⊢
  generalize IsNotExist fs (Join [Join [c.dir, name, Itoa index], "identity.cert".toList]) = x
    at hone ⊢
  generalize IsNotExist fs (Join [Join [c.dir, name, Itoa index], "identity.key".toList]) = y
    at hone ⊢
  cases a <;> cases b <;> cases x <;> cases y <;> simp_all

/-- With only `ca.cert` present for `storagenode/0`, `generateIdentity` refuses and changes nothing. -/
theorem generateIdentity_partial_state_conflict_witness :
    ¬ ("storagenode".toList = "satellite-api".toList ∧ (0 : Int) = 0) ∧
    (caCertOnlyFS "/up/storagenode/0/ca.cert".toList).isSome = true ∧
    (caCertOnlyFS "/up/storagenode/0/ca.key".toList).isSome = false ∧
    generateIdentity sampleEnv sampleRuntime caCertOnlyFS "storagenode".toList 0 =
      (caCertOnlyFS, some
        (if IsNotExist caCertOnlyFS
              (Join [Join [sampleRuntime.dir, "storagenode".toList, Itoa 0], "ca.cert".toList])
            ≠ IsNotExist caCertOnlyFS
              (Join [Join [sampleRuntime.dir, "storagenode".toList, Itoa 0], "ca.key".toList])
         then "CA certificate and/or key already exists, NOT overwriting!".toList
         else "Identity certificate and/or key already exists, NOT overwriting!".toList)) :=
  ⟨by decide, by decide, by decide,
   generateIdentity_partial_state_conflict sampleEnv sampleRuntime caCertOnlyFS
     "storagenode".toList 0 (by decide) (Or.inl (by decide))⟩

/-- C7, as the code has it: `Get(instance, "identityDir")` returns the canonical string
`<name>/<index>`. Joined to the runtime's root it is the directory `<root>/<name>/<index>`, and
the only files `generateIdentity` writes are the four identity files of that directory. -/
theorem get_identityDir_is_relative (env : Env) (c : Standalone) (service : ServiceInstance)
    (h : c.dir ≠ [] ∨ service.Name ≠ []) :
    Get env c service "identityDir".toList
      = Outcome.returned (service.Name ++ ['/'] ++ Itoa service.Instance) ∧
    Join [c.dir, service.Name ++ ['/'] ++ Itoa service.Instance]
      = Join [c.dir, service.Name, Itoa service.Instance] ∧
    ∀ (fs : FS) (q : Str),
      q ∉ identityFiles (Join [c.dir, service.Name ++ ['/'] ++ Itoa service.Instance]) →
      (generateIdentity env c fs service.Name service.Instance).1 q = fs q := by
  have hjoin : Join [c.dir, service.Name ++ ['/'] ++ Itoa service.Instance]
      = Join [c.dir, service.Name, Itoa service.Instance] := by
    by_cases hd : c.dir = []
    · have hn : service.Name ≠ [] := by
        rcases h with h | h
        · exact absurd hd h
        · exact h
      simp [Join, hd, hn, List.intercalate, List.intersperse]
    · simp [Join, hd, List.intercalate, List.intersperse]
  refine ⟨?_, hjoin, ?_⟩
  · simp [Get, ServiceInstance.String]
  · intro fs q hq
    rw [hjoin] at hq
    exact generateIdentity_frame env c fs service.Name service.Instance q hq

/-- The instance `satellite-api/0` on the runtime rooted at `/up`. -/
theorem get_identityDir_is_relative_witness :
    (sampleRuntime.dir ≠ [] ∨ ("satellite-api".toList : Str) ≠ []) ∧
    Get sampleEnv sampleRuntime { Name := "satellite-api".toList, Instance := 0 }
      "identityDir".toList = Outcome.returned ("satellite-api".toList ++ ['/'] ++ Itoa 0) ∧
    Join [sampleRuntime.dir, "satellite-api".toList ++ ['/'] ++ Itoa 0]
      = Join [sampleRuntime.dir, "satellite-api".toList, Itoa 0] ∧
    ∀ (fs : FS) (q : Str),
      q ∉ identityFiles (Join [sampleRuntime.dir, "satellite-api".toList ++ ['/'] ++ Itoa 0]) →
      (generateIdentity sampleEnv sampleRuntime fs "satellite-api".toList 0).1 q = fs q :=
  ⟨Or.inl (by decide),
   get_identityDir_is_relative sampleEnv sampleRuntime
     { Name := "satellite-api".toList, Instance := 0 } (Or.inl (by decide))⟩

/-- C7 fails as stated: with root `/up`, `Get(satellite-api/0, "identityDir")` is
`satellite-api/0`, not the directory `/up/satellite-api/0` in which `generateIdentity` puts the
identity files. -/
theorem get_identityDir_is_not_the_directory :
    Get sampleEnv sampleRuntime { Name := "satellite-api".toList, Instance := 0 }
      "identityDir".toList = Outcome.returned "satellite-api/0".toList ∧
    Join [sampleRuntime.dir, "satellite-api".toList, Itoa 0] = "/up/satellite-api/0".toList ∧
    (generateIdentity sampleEnv sampleRuntime emptyFS "satellite-api".toList 0).1
      "/up/satellite-api/0/ca.cert".toList = some "embedded ca.cert".toList ∧
    (generateIdentity sampleEnv sampleRuntime emptyFS "satellite-api".toList 0).1
      "satellite-api/0/ca.cert".toList = none := by
  refine ⟨by decide, by decide, by decide, by decide⟩

/-! ## Theorems: Standalone, the registry -/

/-- A call of `AddService` either returns an error and leaves the runtime as it was, or returns no error and appends the returned service to the registry. -/
theorem addService_cases (env : Env) (c : Standalone) (fs : FS) (recipe : Recipe) :
    ((AddService env c fs recipe).err ≠ none ∧ (AddService env c fs recipe).c = c) ∨
    ((AddService env c fs recipe).err = none ∧
      ∃ s, (AddService env c fs recipe).svc = some s ∧
        (AddService env c fs recipe).c = { c with services := c.services ++ [s] }) := by
  unfold AddService
  dsimp only
  split
  · exact Or.inl ⟨by simp, rfl⟩
  · split
    · exact Or.inl ⟨by simp, rfl⟩
    · split
      · split
        · exact Or.inl ⟨by simp, rfl⟩
        · exact Or.inr ⟨rfl, _, rfl, rfl⟩
      · exact Or.inr ⟨rfl, _, rfl, rfl⟩

/-- C10: when `AddService` returns an error, the runtime is what it was before the call; in
particular the registry is unchanged and `serviceCount` gives, for every name, the value it
gave before, which is the index a retry is assigned. -/
theorem addService_error_leaves_registry (env : Env) (c : Standalone) (fs : FS)
    (recipe : Recipe) (h : (AddService env c fs recipe).err ≠ none) :
    (AddService env c fs recipe).c = c ∧
    (AddService env c fs recipe).c.services = c.services ∧
    ∀ name, serviceCount env (AddService env c fs recipe).c name = serviceCount env c name := by
  rcases addService_cases env c fs recipe with ⟨_, hc⟩ | ⟨hnone, _⟩
  · rw [hc]
    exact ⟨rfl, rfl, fun _ => rfl⟩
  · exact absurd hnone h

/-- A failing setup subcommand on the runtime built by `NewStandalone`: the error is returned and the runtime is unchanged. -/
theorem addService_error_leaves_registry_witness :
    (AddService failingSetupEnv sampleRuntime emptyFS storagenodeRecipe).err
      = some "exit status 1".toList ∧
    ((AddService failingSetupEnv sampleRuntime emptyFS storagenodeRecipe).c = sampleRuntime ∧
     (AddService failingSetupEnv sampleRuntime emptyFS storagenodeRecipe).c.services
       = sampleRuntime.services ∧
     ∀ name,
       serviceCount failingSetupEnv
         (AddService failingSetupEnv sampleRuntime emptyFS storagenodeRecipe).c name
       = serviceCount failingSetupEnv sampleRuntime name) :=
  ⟨by decide,
   addService_error_leaves_registry failingSetupEnv sampleRuntime emptyFS storagenodeRecipe
     (by decide)⟩

/-- Filling a slice index by index from position `n` on. -/
theorem fill_enumFrom (l : List service) :
    ∀ (n : Nat) (k : List (Option service)), k.length = n + l.length →
      (l.enumFrom n).foldl (fun k entry => k.set entry.1 (some entry.2)) k
        = k.take n ++ l.map some := by
  induction l with
  | nil =>
    intro n k hk
    simp only [List.length_nil, Nat.add_zero] at hk
    simp [← hk]
  | cons x xs ih =>
    intro n k hk
    simp only [List.length_cons] at hk
    have hn : n < k.length := by omega
    simp only [List.enumFrom_cons, List.foldl_cons]
    rw [ih (n + 1) (k.set n (some x)) (by simp only [List.length_set]; omega)]
    rw [List.take_succ, List.set_take, List.set_eq_of_length_le (by simp)]
    simp [hn]

/-- The slice `GetServices` returns holds the registry, element by element. -/
theorem getServices_eq (c : Standalone) : GetServices c = c.services.map some := by
  unfold GetServices
  rw [List.enum, fill_enumFrom c.services 0 _ (by simp)]
  simp

/-- In a sequence of calls, one result per call; each call that returns no error returns a
service, and the registered services are as many as the calls without error. -/
theorem addServices_results (env : Env) (recipes : List Recipe) :
    ∀ (c : Standalone) (fs : FS),
      (addServices env c fs recipes).2.2.length = recipes.length ∧
      (∀ r ∈ (addServices env c fs recipes).2.2, r.err = none → ∃ s, r.svc = some s) ∧
      (registered (addServices env c fs recipes).2.2).length
        = (addServices env c fs recipes).2.2.countP (fun r => decide (r.err = none)) := by
  induction recipes with
  | nil => intro c fs; simp [addServices, registered]
  | cons recipe rest ih =>
    intro c fs
    obtain ⟨hlen, hsvc, hcount⟩ := ih (AddService env c fs recipe).c (AddService env c fs recipe).fs
    simp only [addServices]
    refine ⟨by simp [hlen], ?_, ?_⟩
    · intro r hr hnone
      rcases List.mem_cons.mp hr with rfl | hr
      · rcases addService_cases env c fs recipe with ⟨herr, _⟩ | ⟨_, s, hs, _⟩
        · exact absurd hnone herr
        · exact ⟨s, hs⟩
      · exact hsvc r hr hnone
    · rcases addService_cases env c fs recipe with ⟨herr, _⟩ | ⟨hnone, s, hs, _⟩
      · simp only [registered] at hcount ⊢
        simp [List.filterMap_cons, herr, hcount]
      · simp only [registered] at hcount ⊢
        simp [List.filterMap_cons, hnone, hs, hcount]

/-- C6: a call of `AddService` that returns no error returns a service and appends exactly that
service at the end of the registry, a call that returns an error leaves the registry as it was;
so after any sequence of calls (one result per call) the registry is the registry before it
followed by the services of the calls that returned no error, one for each such call, in call
order, and `GetServices` returns a slice of the registry's length whose i-th element is the i-th
registered service. -/
theorem addServices_registry_in_call_order (env : Env) (c : Standalone) (fs : FS)
    (recipes : List Recipe) :
    (∀ (c0 : Standalone) (fs0 : FS) (recipe : Recipe),
      ((AddService env c0 fs0 recipe).err = none →
        ∃ s, (AddService env c0 fs0 recipe).svc = some s ∧
          (AddService env c0 fs0 recipe).c.services = c0.services ++ [s]) ∧
      ((AddService env c0 fs0 recipe).err ≠ none →
        (AddService env c0 fs0 recipe).c.services = c0.services)) ∧
    (addServices env c fs recipes).2.2.length = recipes.length ∧
    (∀ r ∈ (addServices env c fs recipes).2.2, r.err = none → ∃ s, r.svc = some s) ∧
    (registered (addServices env c fs recipes).2.2).length
      = (addServices env c fs recipes).2.2.countP (fun r => decide (r.err = none)) ∧
    (addServices env c fs recipes).1.services
      = c.services ++ registered (addServices env c fs recipes).2.2 ∧
    GetServices (addServices env c fs recipes).1
      = (c.services ++ registered (addServices env c fs recipes).2.2).map some ∧
    (GetServices (addServices env c fs recipes).1).length
      = (addServices env c fs recipes).1.services.length := by
  have key : ∀ (recipes : List Recipe) (c : Standalone) (fs : FS),
      (addServices env c fs recipes).1.services
        = c.services ++ registered (addServices env c fs recipes).2.2 := by
    intro recipes
    induction recipes with
    | nil => intro c fs; simp [addServices, registered]
    | cons recipe rest ih =>
      intro c fs
      simp only [addServices]
      rw [ih]
      rcases addService_cases env c fs recipe with ⟨herr, hc⟩ | ⟨hnone, s, hs, hc⟩
      · rw [hc]
        simp [registered, List.filterMap_cons, herr]
      · rw [hc]
        simp [registered, List.filterMap_cons, hnone, hs]
  obtain ⟨hlen, hsvc, hcount⟩ := addServices_results env recipes c fs
  refine ⟨?_, hlen, hsvc, hcount, key recipes c fs, ?_, ?_⟩
  · intro c0 fs0 recipe
    rcases addService_cases env c0 fs0 recipe with ⟨herr, hc⟩ | ⟨hnone, s, hs, hc⟩
    · exact ⟨fun h => absurd h herr, fun _ => by rw [hc]⟩
    · exact ⟨fun _ => ⟨s, hs, by rw [hc]⟩, fun h => absurd hnone h⟩
  · rw [getServices_eq, key recipes c fs]
  · rw [getServices_eq, List.length_map]

/-! ## Theorems: Standalone, the commenting of the generated configuration -/

/-- State of the configuration after the first `k` iterations of the commenting loop. -/
theorem commentConfig_upto (config : List Str) :
    ∀ k, k ≤ config.length →
      (List.range k).foldl
        (fun config ix =>
          match config[ix]? with
          | none => config
          | some line =>
              let line := TrimSpace line
              if line.length > 0 ∧ line.head? ≠ some '#' then config.set ix ('#' :: line)
              else config)
        config
      = (config.take k).map commentLine ++ config.drop k := by
  intro k
  induction k with
  | zero => intro _; simp
  | succ k ih =>
    intro hk
    have hlt : k < config.length := by omega
    rw [List.range_succ, List.foldl_append, ih (by omega)]
    simp only [List.foldl_cons, List.foldl_nil]
    have hlen : ((config.take k).map commentLine).length = k := by
      simp only [List.length_map, List.length_take]; omega
    have hget : ((config.take k).map commentLine ++ config.drop k)[k]? = some config[k] := by
      rw [List.getElem?_append_right (by omega), hlen]
      simp [hlt]
    rw [hget]
    have hset : ∀ v : Str, ((config.take k).map commentLine ++ config.drop k).set k v
        = (config.take k).map commentLine ++ v :: config.drop (k + 1) := by
      intro v
      rw [List.set_append_right _ _ (by omega), hlen, Nat.sub_self,
        List.drop_eq_getElem_cons hlt]
      rfl
    have hstep : (config.take (k + 1)).map commentLine ++ config.drop (k + 1)
        = (config.take k).map commentLine ++ commentLine config[k] :: config.drop (k + 1) := by
      rw [List.take_succ, List.getElem?_eq_getElem hlt]
      simp only [Option.toList, List.map_append, List.map_cons, List.map_nil, List.append_assoc,
        List.singleton_append]
    rw [hstep]
    dsimp only
    by_cases hcond : (TrimSpace config[k]).length > 0 ∧ (TrimSpace config[k]).head? ≠ some '#'
    · rw [if_pos hcond, hset]
      have : commentLine config[k] = '#' :: TrimSpace config[k] := by
        obtain ⟨h1, h2⟩ := hcond
        have hne : TrimSpace config[k] ≠ [] := by
          intro h0; rw [h0] at h1; simp at h1
        simp [commentLine, isBlank, isComment, hne, h2]
      rw [this]
    · rw [if_neg hcond]
      have : commentLine config[k] = config[k] := by
        unfold commentLine isBlank isComment
        rw [if_neg]
        intro ⟨h1, h2⟩
        apply hcond
        constructor
        · cases hts : TrimSpace config[k] with
          | nil => rw [hts] at h1; simp at h1
          | cons a t => simp
        · intro h; rw [h] at h2; simp at h2
      rw [this, ← List.drop_eq_getElem_cons hlt]

/-- C3, as the code has it: the commenting step maps the lines one by one, keeping their number
and order; a line that is neither blank nor a comment becomes the marker followed by the line
with its surrounding white space removed, every other line is kept as it is. -/
theorem commentConfig_eq_map (config : List Str) :
    commentConfig config = config.map commentLine ∧
    (commentConfig config).length = config.length := by
  have h : commentConfig config = config.map commentLine := by
    unfold commentConfig
    rw [commentConfig_upto config config.length (Nat.le_refl _)]
    simp
  exact ⟨h, by rw [h, List.length_map]⟩

/-- The spec's two lines: `addr: 1.2.3.4` becomes `#addr: 1.2.3.4`, `# already commented` stays. -/
theorem commentConfig_spec_lines :
    commentConfig (splitChar '\n' "addr: 1.2.3.4\n# already commented".toList)
      = ["#addr: 1.2.3.4".toList, "# already commented".toList] := by
  decide

/-- C3 fails as stated: the setup subcommand of `sampleEnv` writes the lines `  addr: 1.2.3.4`
and `# already commented`; the first is neither blank nor a comment, and the service's
configuration holds `#addr: 1.2.3.4` for it, not the marker followed by that line. -/
theorem commented_line_loses_indentation :
    isBlank "  addr: 1.2.3.4".toList = false ∧ isComment "  addr: 1.2.3.4".toList = false ∧
    (AddService sampleEnv sampleRuntime emptyFS storagenodeRecipe).svc.map (fun s => s.config)
      = some ["#addr: 1.2.3.4".toList, "# already commented".toList] ∧
    commentConfig (splitChar '\n' "  addr: 1.2.3.4\n# already commented".toList)
      ≠ ['#' :: "  addr: 1.2.3.4".toList, "# already commented".toList] := by
  refine ⟨by decide, by decide, by decide, by decide⟩

/-! ## Theorems: paths -/

/-- The method `serviceCount` is the number of registered services that carry the parsed name. -/
theorem serviceCount_eq_length (env : Env) (c : Standalone) (name : Str) :
    serviceCount env c name
      = ((instancesOf (env.ServiceInstanceFromIndexedName name).Name c.services).length : Int) := by
  unfold serviceCount instancesOf
  have key : ∀ (l : List service) (i : Int),
      l.foldl (fun i o =>
          if o.id.Name = (env.ServiceInstanceFromIndexedName name).Name then i + 1 else i) i
        = i + (((l.filter (fun s =>
            decide (s.id.Name = (env.ServiceInstanceFromIndexedName name).Name))).map
              (fun s => s.id.Instance)).length : Int) := by
    intro l
    induction l with
    | nil => intro i; simp
    | cons o rest ih =>
      intro i
      simp only [List.foldl_cons, ih]
      by_cases ho : o.id.Name = (env.ServiceInstanceFromIndexedName name).Name
      · simp [ho]; omega
      · simp [ho]
  simpa using key c.services 0

/-- Configuration generation does not change the identity of the service. -/
theorem generateConfig_id (env : Env) (recipe : Recipe) (s : service) (serviceDir : Str) (fs : FS)
    (fs1 : FS) (printed : List Str) (s1 : service)
    (h : generateConfig env recipe s serviceDir fs = (fs1, printed, Except.ok s1)) :
    s1.id = s.id := by
  unfold generateConfig at h
  dsimp only at h
  split at h
  · split at h
    · cases h
    · split at h
      · cases h
      · cases h
        rfl
  · cases h
    rfl

/-- A successful `AddService` appends a service whose identity is the recipe's name with the index `serviceCount` gave. -/
theorem addService_success_id (env : Env) (c : Standalone) (fs : FS) (recipe : Recipe)
    (hInit : ∀ s r, (env.InitFromRecipe s r).1.id = s.id)
    (hFlag : ∀ s flag, (env.AddFlag s flag).1.id = s.id)
    (hnone : (AddService env c fs recipe).err = none) :
    ∃ s, (AddService env c fs recipe).c = { c with services := c.services ++ [s] } ∧
      s.id = { Name := recipe.Name, Instance := serviceCount env c recipe.Name } := by
  unfold AddService at hnone ⊢
  simp only [NewServiceInstance] at hnone ⊢
  split at hnone
  · simp at hnone
  · rename_i fs1 printed s1 heq
    have hs1 : s1.id = { Name := recipe.Name, Instance := serviceCount env c recipe.Name } := by
      split at heq
      · split at heq
        · cases heq
        · exact generateConfig_id env recipe _ _ _ fs1 printed s1 heq
      · cases heq
        rfl
    have hs2 := hInit s1 recipe
    cases hinit : env.InitFromRecipe s1 recipe with
    | mk s2 e2 =>
      rw [hinit] at hs2 hnone
      dsimp only at hs2 hnone ⊢
      cases e2 with
      | some err => simp at hnone
      | none =>
        dsimp only at hnone ⊢
        by_cases hstorj : recipe.HasLabel "storj".toList = true
        · simp only [hstorj, if_true] at hnone ⊢
          have hs3 := hFlag s2 ("--config-dir=".toList ++ Dir (Join
            [Join [c.dir, recipe.Name, Itoa (serviceCount env c recipe.Name)],
              "config.yaml".toList]))
          cases hflag : env.AddFlag s2 ("--config-dir=".toList ++ Dir (Join
            [Join [c.dir, recipe.Name, Itoa (serviceCount env c recipe.Name)],
              "config.yaml".toList])) with
          | mk s3 e3 =>
            rw [hflag] at hs3 hnone
            dsimp only at hs3 hnone ⊢
            cases e3 with
            | some err => simp at hnone
            | none => exact ⟨s3, rfl, by rw [hs3, hs2, hs1]⟩
        · simp only [hstorj] at hnone ⊢
          exact ⟨s2, rfl, by rw [hs2, hs1]⟩

/-- One call of `AddService` keeps the indices under a name the parser maps to itself dense. -/
theorem addService_dense (env : Env) (c : Standalone) (fs : FS) (recipe : Recipe) (name : Str)
    (hInit : ∀ s r, (env.InitFromRecipe s r).1.id = s.id)
    (hFlag : ∀ s flag, (env.AddFlag s flag).1.id = s.id)
    (hname : (env.ServiceInstanceFromIndexedName name).Name = name)
    (hc : Dense name c.services) :
    Dense name (AddService env c fs recipe).c.services := by
  rcases addService_cases env c fs recipe with ⟨_, hsame⟩ | ⟨hnone, _⟩
  · rw [hsame]
    exact hc
  · obtain ⟨s, hs, hid⟩ := addService_success_id env c fs recipe hInit hFlag hnone
    rw [hs]
    show Dense name (c.services ++ [s])
    by_cases hn : recipe.Name = name
    · have hcount := serviceCount_eq_length env c name
      rw [hname] at hcount
      have hinst : instancesOf name (c.services ++ [s])
          = instancesOf name c.services ++ [Int.ofNat (instancesOf name c.services).length] := by
        rw [Int.ofNat_eq_coe, ← hcount]
        simp [instancesOf, List.filter_append, List.filter_cons, hid, hn]
      unfold Dense
      rw [hinst, List.length_append, List.length_singleton, List.range_succ, List.map_append,
        ← hc]
      rfl
    · have hinst : instancesOf name (c.services ++ [s]) = instancesOf name c.services := by
        simp [instancesOf, List.filter_append, List.filter_cons, hid, hn]
      unfold Dense
      rw [hinst]
      exact hc

/-- What the code does guarantee about indices: when the indexed-name parser maps `name` to itself
(and the collaborators that initialise a service leave its identity alone), any sequence of
`AddService` calls on an empty registry gives the services named `name` the indices
0, 1, 2, ... in call order, hence no index twice. -/
theorem addServices_dense_for_fixed_names (env : Env) (name : Str)
    (hInit : ∀ s r, (env.InitFromRecipe s r).1.id = s.id)
    (hFlag : ∀ s flag, (env.AddFlag s flag).1.id = s.id)
    (hname : (env.ServiceInstanceFromIndexedName name).Name = name)
    (c : Standalone) (fs : FS) (recipes : List Recipe) (hc : c.services = []) :
    Dense name (addServices env c fs recipes).1.services ∧
    (instancesOf name (addServices env c fs recipes).1.services).Nodup := by
  have key : ∀ (recipes : List Recipe) (c : Standalone) (fs : FS),
      Dense name c.services → Dense name (addServices env c fs recipes).1.services := by
    intro recipes
    induction recipes with
    | nil => intro c fs h; exact h
    | cons recipe rest ih =>
      intro c fs h
      simp only [addServices]
      exact ih _ _ (addService_dense env c fs recipe name hInit hFlag hname h)
  have hd := key recipes c fs (by rw [hc]; rfl)
  refine ⟨hd, ?_⟩
  rw [hd]
  exact (List.nodup_range _).map (fun a b hab => Int.ofNat.inj hab)

/-- Two `storagenode` recipes around a `storagenode1` recipe: the `storagenode` indices are 0, 1. -/
theorem addServices_dense_for_fixed_names_witness :
    Dense "storagenode".toList
      (addServices sampleEnv sampleRuntime emptyFS
        [storagenodeRecipe, storagenode1Recipe, storagenodeRecipe]).1.services ∧
    (instancesOf "storagenode".toList
      (addServices sampleEnv sampleRuntime emptyFS
        [storagenodeRecipe, storagenode1Recipe, storagenodeRecipe]).1.services).Nodup :=
  addServices_dense_for_fixed_names sampleEnv "storagenode".toList (fun _ _ => rfl)
    (fun _ _ => rfl) (by decide) sampleRuntime emptyFS
    [storagenodeRecipe, storagenode1Recipe, storagenodeRecipe] (by decide)

end StorjUp
